import Mathlib

/-!
Verification of the CodeCoach GitHub review reporter
(`src/Provider/GitHub/GitHub.ts`) against its specification.

The reporter is embedded shallowly: every adapter operation of
`IGitHubPRService` is a value of type `Except Err α`, and running `report`
produces both the final result and the ordered trace of adapter calls that
were issued.  Utility modules that the reporter imports but that are not
part of the provided source (`filter.util`, `commentUtil`,
`message.util`) are modelled from the specification, each marked in its
doc comment.
-/

namespace CodeCoach

/-- Severity of a single analyzer finding (`LogSeverity` in the source). -/
inductive LogSeverity where
  | error
  | warning
  | info
  | unknown
deriving DecidableEq, Repr

/-- One static-analysis finding (`LogType` in the source): source file
path, line number, severity and message text. -/
structure LogType where
  source : String
  line : Nat
  severity : LogSeverity
  msg : String
deriving DecidableEq, Repr

/-- One changed file of the pull request (`Diff` in the source), with the
set of changed line numbers supplied by the platform. -/
structure Diff where
  file : String
  touchedLines : List Nat
deriving DecidableEq, Repr

/-- A grouped comment record (`Comment` in the source): one per
(file, line) location, carrying the error and warning counts and the
composed message text. -/
structure Comment where
  file : String
  line : Nat
  text : String
  errors : Nat
  warnings : Nat
deriving DecidableEq, Repr

/-- Author reference carried by platform comment records. -/
structure User where
  id : Nat
deriving DecidableEq, Repr

/-- Modelled from the spec: a platform-side top-level comment record,
`listTopLevelComments() -> sequence of (id, authorId, isSystemGenerated?)`
(§6).  The GitHub implementation reads only `id` and `user`; the
`system` flag is carried to express that selection ignores it. -/
structure IssueComment where
  id : Nat
  user : Option User
  system : Bool
deriving DecidableEq, Repr

/-- Modelled from the spec: a platform-side inline/review comment record,
`listInlineComments() -> sequence of (id, authorId)` (§6). -/
structure ReviewComment where
  id : Nat
  user : Option User
deriving DecidableEq, Repr

/-- Commit status values used by the reporter (`CommitStatus` in the
source): `failure` when blocking errors exist, `success` otherwise. -/
inductive CommitStatus where
  | success
  | failure
deriving DecidableEq, Repr

/-- Modelled from the spec: `onlySeverity` of `filter.util` (not under
`src/`), as used at the call site with the two severities error and
warning — retains a finding iff its severity is one of the two given
ones (§4.1). -/
def onlySeverity (s1 s2 : LogSeverity) (log : LogType) : Bool :=
  log.severity == s1 || log.severity == s2

/-- Modelled from the spec: `onlyIn` of `filter.util` (not under
`src/`) — retains a finding iff its (file, line) appears inside some
DiffEntry's changed-line set (§4.1). -/
def onlyIn (diff : List Diff) (log : LogType) : Bool :=
  diff.any fun d => d.file == log.source && d.touchedLines.contains log.line

/-- The filter stage exactly as chained in `GitHub.setup` (lines 66–68 of
the source): first the severity filter, then the diff-membership
filter. -/
def filterStage (logs : List LogType) (diff : List Diff) : List LogType :=
  (logs.filter (onlySeverity .error .warning)).filter (onlyIn diff)

/-- Spec-side characterization of retention (§4.1): severity is error or
warning, and the (file, line) lies inside some DiffEntry's changed-line
set.  Stated from the spec's words, to be compared with `filterStage`. -/
def retainedSpec (diff : List Diff) (log : LogType) : Prop :=
  (log.severity = .error ∨ log.severity = .warning) ∧
    ∃ d ∈ diff, d.file = log.source ∧ log.line ∈ d.touchedLines

instance (diff : List Diff) (log : LogType) : Decidable (retainedSpec diff log) := by
  unfold retainedSpec
  infer_instance

/-- Modelled from the spec: the update of one comment group by one more
finding at the same (file, line): bump the matching severity count and
append the message in first-seen order (§4.2). -/
def updateComment (c : Comment) (log : LogType) : Comment :=
  { c with
    text := c.text ++ log.msg ++ "\n"
    errors := c.errors + (if log.severity = .error then 1 else 0)
    warnings := c.warnings + (if log.severity = .warning then 1 else 0) }

/-- Modelled from the spec: the comment group created by the first
finding at a (file, line) (§4.2). -/
def mkComment (log : LogType) : Comment :=
  { file := log.source
    line := log.line
    text := log.msg ++ "\n"
    errors := if log.severity = .error then 1 else 0
    warnings := if log.severity = .warning then 1 else 0 }

/-- Whether a comment group sits at the (file, line) of a finding. -/
def sameLocation (c : Comment) (log : LogType) : Bool :=
  c.file == log.source && c.line == log.line

/-- Modelled from the spec: one step of grouping — merge a finding into
the existing group for its (file, line), or append a fresh group at the
end (stable first-seen order, §4.2). -/
def addLog (acc : List Comment) (log : LogType) : List Comment :=
  if acc.any (sameLocation · log) then
    acc.map fun c => if sameLocation c log then updateComment c log else c
  else
    acc ++ [mkComment log]

/-- Modelled from the spec: `groupComments` of `commentUtil` (not under
`src/`) — aggregate findings by (file, line) into comment groups (§4.2). -/
def groupComments (logs : List LogType) : List Comment :=
  logs.foldl addLog []

/-- Modelled from the spec: `MessageUtil.generateOverviewMessage` (not
under `src/`) — a human-readable summary referencing both counts (§4.3). -/
def generateOverviewMessage (nError nWarning : Nat) : String :=
  "CodeCoach report: " ++ toString nError ++ " error(s), " ++
    toString nWarning ++ " warning(s)"

/-- Modelled from the spec: `MessageUtil.generateCommitDescription` (not
under `src/`) — distinct wording for a zero and a nonzero error count
(§4.3). -/
def generateCommitDescription (nError : Nat) : String :=
  if nError > 0 then toString nError ++ " error(s) found" else "No error found"

/-- Failure payload of a rejected adapter call. -/
abbrev Err := String

/-- One adapter call issued by the reporter, recorded in order. -/
inductive Event where
  | getSha
  | getDiff
  | getCurrentUserId
  | listAllComments
  | listAllReviewComments
  | deleteComment (id : Nat)
  | deleteReviewComment (id : Nat)
  | createReviewComment (commitId : String) (text : String) (file : String) (line : Nat)
  | createComment (text : String)
  | setCommitStatus (commitId : String) (status : CommitStatus) (description : String)
deriving DecidableEq, Repr

/-- The result of running a reporter fragment: the value or the error it
rethrows, together with the ordered trace of adapter calls issued. -/
abbrev TraceResult (α : Type) := Except Err α × List Event

/-- Sequencing of reporter fragments: a failure short-circuits, traces
concatenate. -/
def tbind {α β : Type} (x : TraceResult α) (f : α → TraceResult β) : TraceResult β :=
  match x with
  | (.error e, tr) => (.error e, tr)
  | (.ok a, tr) => ((f a).1, tr ++ (f a).2)

/-- A single awaited adapter call: one event, the adapter's outcome. -/
def call {α : Type} (ev : Event) (r : Except Err α) : TraceResult α := (r, [ev])

/-- `Promise.all` over a batch of unit calls: every call in the batch is
issued (its event appears), and the joint wait fails with the first
rejection in batch order, if any. -/
def firstErr (rs : List (Except Err Unit)) : Except Err Unit :=
  rs.foldl (fun acc r => match acc with | .error e => .error e | .ok _ => r) (.ok ())

/-- Shallow embedding of `IGitHubPRService`: each operation's outcome is
fixed by the environment; `Except.error` models a rejected promise. -/
structure PRService where
  getLatestCommitSha : Except Err String
  diff : Except Err (List Diff)
  createComment : String → Except Err Unit
  createReviewComment : String → String → String → Nat → Except Err Unit
  setCommitStatus : String → CommitStatus → String → Except Err Unit
  getCurrentUserId : Except Err Nat
  listAllComments : Except Err (List IssueComment)
  listAllReviewComments : Except Err (List ReviewComment)
  deleteComment : Nat → Except Err Unit
  deleteReviewComment : Nat → Except Err Unit

/-- The reporter state assembled by `GitHub.setup` (source lines 62–81):
commit id, grouped comments and the two totals. -/
structure SetupState where
  commitId : String
  comments : List Comment
  nError : Nat
  nWarning : Nat
deriving DecidableEq, Repr

/-- Total error count as `GitHub.setup` computes it (source line 71):
sum of per-group error counts. -/
def sumErrors (comments : List Comment) : Nat :=
  comments.foldl (fun sum c => sum + c.errors) 0

/-- Total warning count as `GitHub.setup` computes it (source line 72). -/
def sumWarnings (comments : List Comment) : Nat :=
  comments.foldl (fun sum c => sum + c.warnings) 0

/-- `GitHub.setup` (source lines 62–81): fetch the latest commit sha and
the diff sequentially, filter and group the findings, compute totals. -/
def setupPhase (svc : PRService) (logs : List LogType) : TraceResult SetupState :=
  tbind (call .getSha svc.getLatestCommitSha) fun sha =>
  tbind (call .getDiff svc.diff) fun touchedDiff =>
    let comments := groupComments (filterStage logs touchedDiff)
    (.ok { commitId := sha
           comments := comments
           nError := sumErrors comments
           nWarning := sumWarnings comments }, [])

/-- The author check of `removeExistingComments` (source lines 100 and
104): `comment.user?.id === userId` — an absent user compares unequal. -/
def authorMatches (user : Option User) (userId : Nat) : Bool :=
  match user with
  | none => false
  | some u => u.id == userId

/-- The top-level comments selected for deletion (source lines 99–100). -/
def selectedComments (userId : Nat) (cs : List IssueComment) : List IssueComment :=
  cs.filter fun c => authorMatches c.user userId

/-- The review comments selected for deletion (source lines 103–104). -/
def selectedReviews (userId : Nat) (rs : List ReviewComment) : List ReviewComment :=
  rs.filter fun r => authorMatches r.user userId

/-- `GitHub.removeExistingComments` (source lines 91–109): read the
current user id and both comment listings jointly, then issue one delete
per selected item, comments first then reviews, awaited jointly. -/
def removalPhase (svc : PRService) : TraceResult Unit :=
  tbind (match svc.getCurrentUserId, svc.listAllComments, svc.listAllReviewComments with
         | .error e, _, _ => (.error e, readEvents)
         | .ok _, .error e, _ => (.error e, readEvents)
         | .ok _, .ok _, .error e => (.error e, readEvents)
         | .ok u, .ok cs, .ok rs => (.ok (u, cs, rs), readEvents))
    fun x =>
      match x with
      | (userId, cs, rs) =>
        let delC := selectedComments userId cs
        let delR := selectedReviews userId rs
        (firstErr (delC.map (fun c => svc.deleteComment c.id) ++
                   delR.map (fun r => svc.deleteReviewComment r.id)),
         delC.map (fun c => Event.deleteComment c.id) ++
           delR.map (fun r => Event.deleteReviewComment r.id))
where
  /-- The three reads issued jointly at source lines 92–96. -/
  readEvents : List Event :=
    [.getCurrentUserId, .listAllComments, .listAllReviewComments]

/-- The inline-comment fan-out of `report` (source line 32): one
`createReviewComment` per group, awaited jointly. -/
def reviewPhase (svc : PRService) (commitId : String) (comments : List Comment) :
    TraceResult Unit :=
  (firstErr (comments.map fun c => svc.createReviewComment commitId c.text c.file c.line),
   comments.map fun c => Event.createReviewComment commitId c.text c.file c.line)

/-- `GitHub.createSummaryComment` (source lines 45–53): post the overview
comment exactly when `nWarning + nError > 0`. -/
def summaryPhase (svc : PRService) (nError nWarning : Nat) : TraceResult Unit :=
  if nWarning + nError > 0 then
    call (.createComment (generateOverviewMessage nError nWarning))
      (svc.createComment (generateOverviewMessage nError nWarning))
  else
    (.ok (), [])

/-- `GitHub.setCommitStatus` (source lines 55–60): failure iff
`nError > 0`, description from the formatter. -/
def statusPhase (svc : PRService) (commitId : String) (nError : Nat) : TraceResult Unit :=
  call (.setCommitStatus commitId
          (if nError > 0 then CommitStatus.failure else CommitStatus.success)
          (generateCommitDescription nError))
    (svc.setCommitStatus commitId
      (if nError > 0 then CommitStatus.failure else CommitStatus.success)
      (generateCommitDescription nError))

/-- The `GitHub` reporter object: the injected PR service and the
`removeOldComment` flag accepted at construction (source lines 19–22). -/
structure GitHub where
  prService : PRService
  removeOldComment : Bool

/-- The constructor's default for `removeOldComment` (source line 21). -/
def GitHub.new (svc : PRService) : GitHub :=
  { prService := svc, removeOldComment := false }

/-- The `removeOldComment` gate of `report` (source lines 28–30): the
removal step runs exactly when the flag is true. -/
def removalStep (svc : PRService) (remove : Bool) : TraceResult Unit :=
  if remove then removalPhase svc else (.ok (), [])

/-- `GitHub.report` (source lines 24–43): setup, optional removal of old
comments, inline comments, summary comment, commit status; any rejection
is rethrown unchanged, and on success the call returns `true`
unconditionally (source line 42). -/
def GitHub.report (g : GitHub) (logs : List LogType) : TraceResult Bool :=
  tbind (setupPhase g.prService logs) fun st =>
  tbind (removalStep g.prService g.removeOldComment) fun _ =>
  tbind (reviewPhase g.prService st.commitId st.comments) fun _ =>
  tbind (summaryPhase g.prService st.nError st.nWarning) fun _ =>
  tbind (statusPhase g.prService st.commitId st.nError) fun _ =>
  (.ok true, [])

/-- An environment in which every adapter call succeeds, determined by
the platform-side data it returns. -/
def pureService (sha : String) (d : List Diff) (userId : Nat)
    (cs : List IssueComment) (rs : List ReviewComment) : PRService :=
  { getLatestCommitSha := .ok sha
    diff := .ok d
    createComment := fun _ => .ok ()
    createReviewComment := fun _ _ _ _ => .ok ()
    setCommitStatus := fun _ _ _ => .ok ()
    getCurrentUserId := .ok userId
    listAllComments := .ok cs
    listAllReviewComments := .ok rs
    deleteComment := fun _ => .ok ()
    deleteReviewComment := fun _ => .ok () }

/-- Total error count of a run, as the reporter derives it: filter,
group, then sum the per-group error counts. -/
def totalErrors (logs : List LogType) (d : List Diff) : Nat :=
  sumErrors (groupComments (filterStage logs d))

/-- Total warning count of a run, derived like `totalErrors`. -/
def totalWarnings (logs : List LogType) (d : List Diff) : Nat :=
  sumWarnings (groupComments (filterStage logs d))

/-- The trace of a successful removal step: the three joint reads, then
one delete per selected comment, then one per selected review comment. -/
def removalEvents (userId : Nat) (cs : List IssueComment) (rs : List ReviewComment) :
    List Event :=
  [.getCurrentUserId, .listAllComments, .listAllReviewComments] ++
    (selectedComments userId cs).map (fun c => Event.deleteComment c.id) ++
    (selectedReviews userId rs).map (fun r => Event.deleteReviewComment r.id)

/-- The trace of the inline-comment fan-out: one post per group, at the
fetched commit id. -/
def reviewEvents (commitId : String) (comments : List Comment) : List Event :=
  comments.map fun c => Event.createReviewComment commitId c.text c.file c.line



/-- Is this event a `setCommitStatus` adapter call? -/
def Event.isSetStatus : Event → Bool
  | .setCommitStatus _ _ _ => true
  | _ => false

/-- Is this event a summary-comment post (`createComment`)? -/
def Event.isSummary : Event → Bool
  | .createComment _ => true
  | _ => false

/-- Is this event an inline review-comment post? -/
def Event.isInlinePost : Event → Bool
  | .createReviewComment _ _ _ _ => true
  | _ => false

/-- Is this event the deletion of a top-level or review comment? -/
def Event.isDelete : Event → Bool
  | .deleteComment _ => true
  | .deleteReviewComment _ => true
  | _ => false

/-- Is this event one of the three reads of the removal step? -/
def Event.isCleanupRead : Event → Bool
  | .getCurrentUserId => true
  | .listAllComments => true
  | .listAllReviewComments => true
  | _ => false

/-- A finding on a touched line with severity error, for concrete runs. -/
def exError : LogType :=
  { source := "f.ts", line := 1, severity := .error, msg := "boom" }

/-- A one-file diff touching line 1 of `f.ts`, for concrete runs. -/
def exDiff : Diff :=
  { file := "f.ts", touchedLines := [1] }

/-- A service whose commit-sha read rejects, all other calls succeeding. -/
def downService : PRService :=
  { pureService "sha" [] 0 [] [] with getLatestCommitSha := Except.error "network down" }

end CodeCoach

namespace CodeCoach

/-- A batch of calls that all succeed is awaited without error. -/
theorem firstErr_eq_ok (l : List (Except Err Unit)) (h : ∀ r ∈ l, r = Except.ok ()) :
    firstErr l = .ok () := by
  induction l with
  | nil => rfl
  | cons x xs ih =>
    have hx : x = Except.ok () := h x (List.mem_cons_self x xs)
    have : firstErr (x :: xs) = firstErr xs := by
      simp [firstErr, hx]
    rw [this]
    exact ih fun r hr => h r (List.mem_cons_of_mem x hr)

/-- Evaluation of a full run in an environment where every adapter call
succeeds: the result is `true` and the trace is the five phases in
order. -/
theorem report_pure_eq (sha : String) (d : List Diff) (userId : Nat)
    (cs : List IssueComment) (rs : List ReviewComment) (r : Bool)
    (logs : List LogType) :
    GitHub.report ⟨pureService sha d userId cs rs, r⟩ logs =
      (.ok true,
        [Event.getSha, Event.getDiff] ++
          (if r then removalEvents userId cs rs else []) ++
          reviewEvents sha (groupComments (filterStage logs d)) ++
          (if totalWarnings logs d + totalErrors logs d > 0 then
            [Event.createComment
              (generateOverviewMessage (totalErrors logs d) (totalWarnings logs d))]
          else []) ++
          [Event.setCommitStatus sha
            (if totalErrors logs d > 0 then CommitStatus.failure else CommitStatus.success)
            (generateCommitDescription (totalErrors logs d))]) := by
  have hdel : ∀ (l : List IssueComment),
      firstErr (l.map fun c => (pureService sha d userId cs rs).deleteComment c.id) = .ok () := by
    intro l
    exact firstErr_eq_ok _ (by simp [pureService])
  by_cases hw : 0 < sumWarnings (groupComments (filterStage logs d)) ∨
      0 < sumErrors (groupComments (filterStage logs d)) <;>
    cases r <;>
      simp [GitHub.report, setupPhase, removalStep, removalPhase, reviewPhase,
        summaryPhase, statusPhase, pureService, tbind, call, removalEvents,
        reviewEvents, removalPhase.readEvents, totalErrors, totalWarnings, hw,
        firstErr_eq_ok]

/-- C4 helper: pointwise agreement of the two chained Boolean filters
with the spec-side retention predicate. -/
theorem filter_pointwise (diff : List Diff) (log : LogType) :
    (onlyIn diff log && onlySeverity .error .warning log) =
      decide (retainedSpec diff log) := by
  rw [Bool.eq_iff_iff]
  simp only [onlySeverity, onlyIn, retainedSpec, List.any_eq_true,
    Bool.and_eq_true, Bool.or_eq_true, beq_iff_eq, List.contains,
    List.elem_iff, decide_eq_true_eq]
  tauto

/-- The chained filter stage is the filter by the spec-side retention
predicate. -/
theorem filterStage_eq_filter_retainedSpec (logs : List LogType) (diff : List Diff) :
    filterStage logs diff = logs.filter fun log => decide (retainedSpec diff log) := by
  unfold filterStage
  rw [List.filter_filter]
  exact List.filter_congr fun log _ => filter_pointwise diff log



/-- C4: the filter stage retains a finding if and only if its severity is
error or warning and its (file, line) appears inside some DiffEntry's
changed-line set; an empty diff yields an empty output. -/
theorem claim_filter_retention (logs : List LogType) (diff : List Diff) :
    filterStage logs diff = (logs.filter fun log => decide (retainedSpec diff log)) ∧
      filterStage logs [] = [] := by
  refine ⟨filterStage_eq_filter_retainedSpec logs diff, ?_⟩
  rw [filterStage_eq_filter_retainedSpec]
  simp [retainedSpec]

/-- C1 (counterexample): a run in which every adapter call succeeds and
whose total filtered error count is 1 still returns true, so the claimed
equivalence with a zero error count fails. -/
theorem claim_report_polarity_cex :
    (GitHub.report ⟨pureService "abc" [exDiff] 0 [] [], false⟩ [exError]).1 =
        Except.ok true ∧
      totalErrors [exError] [exDiff] = 1 := by
  exact ⟨rfl, rfl⟩

/-- C1 (amended): on every findings input on which every adapter call
succeeds, `report` returns true unconditionally, regardless of the total
filtered error count; the pass/fail signal is carried by the commit
status instead. -/
theorem claim_report_returns_true (sha : String) (d : List Diff) (userId : Nat)
    (cs : List IssueComment) (rs : List ReviewComment) (r : Bool)
    (logs : List LogType) :
    (GitHub.report ⟨pureService sha d userId cs rs, r⟩ logs).1 = Except.ok true := by
  rw [report_pure_eq]

/-- C2: on every run that completes, exactly one commit status is set; it
is failure iff the total filtered error count is positive, success
otherwise, with a description derived from the error count. -/
theorem claim_commit_status (sha : String) (d : List Diff) (userId : Nat)
    (cs : List IssueComment) (rs : List ReviewComment) (r : Bool)
    (logs : List LogType) :
    (GitHub.report ⟨pureService sha d userId cs rs, r⟩ logs).2.filter
        Event.isSetStatus =
      [Event.setCommitStatus sha
        (if totalErrors logs d > 0 then CommitStatus.failure else CommitStatus.success)
        (generateCommitDescription (totalErrors logs d))] := by
  rw [report_pure_eq]
  by_cases hw : 0 < sumWarnings (groupComments (filterStage logs d)) ∨
      0 < sumErrors (groupComments (filterStage logs d)) <;>
    cases r <;>
      simp [List.filter_append, List.filter_map, Event.isSetStatus, removalEvents,
        reviewEvents, Function.comp_def, List.filter_false, totalErrors,
        totalWarnings, hw]

/-- C3: exactly one summary comment carrying the overview message is
posted iff the total error count plus the total warning count after
filtering and grouping is positive; otherwise none is posted. -/
theorem claim_summary_comment (sha : String) (d : List Diff) (userId : Nat)
    (cs : List IssueComment) (rs : List ReviewComment) (r : Bool)
    (logs : List LogType) :
    (GitHub.report ⟨pureService sha d userId cs rs, r⟩ logs).2.filter
        Event.isSummary =
      (if totalErrors logs d + totalWarnings logs d > 0 then
        [Event.createComment
          (generateOverviewMessage (totalErrors logs d) (totalWarnings logs d))]
      else []) := by
  rw [report_pure_eq]
  by_cases hw : 0 < sumWarnings (groupComments (filterStage logs d)) ∨
      0 < sumErrors (groupComments (filterStage logs d))
  · have hw2 : 0 < sumErrors (groupComments (filterStage logs d)) ∨
        0 < sumWarnings (groupComments (filterStage logs d)) := hw.symm
    cases r <;>
      simp [List.filter_append, List.filter_map, Event.isSummary, removalEvents,
        reviewEvents, Function.comp_def, List.filter_false, totalErrors,
        totalWarnings, hw, hw2]
  · have hw2 : ¬(0 < sumErrors (groupComments (filterStage logs d)) ∨
        0 < sumWarnings (groupComments (filterStage logs d))) := fun h => hw h.symm
    cases r <;>
      simp [List.filter_append, List.filter_map, Event.isSummary, removalEvents,
        reviewEvents, Function.comp_def, List.filter_false, totalErrors,
        totalWarnings, hw, hw2]

/-- C5: stale-comment removal runs exactly when `removeOldComment` is
true (whose construction-time default is false); when it runs, exactly
one deletion is issued per listed comment or review comment authored by
the current user, in listing order, and the selection holds exactly the
items whose author is the current user. -/
theorem claim_removal_gating (sha : String) (d : List Diff) (userId : Nat)
    (cs : List IssueComment) (rs : List ReviewComment) (r : Bool)
    (logs : List LogType) :
    (GitHub.new (pureService sha d userId cs rs)).removeOldComment = false ∧
      ((GitHub.report ⟨pureService sha d userId cs rs, r⟩ logs).2.filter
          Event.isCleanupRead =
        if r then [Event.getCurrentUserId, Event.listAllComments,
          Event.listAllReviewComments] else []) ∧
      ((GitHub.report ⟨pureService sha d userId cs rs, r⟩ logs).2.filter
          Event.isDelete =
        if r then
          (selectedComments userId cs).map (fun c => Event.deleteComment c.id) ++
            (selectedReviews userId rs).map (fun rv => Event.deleteReviewComment rv.id)
        else []) ∧
      (∀ c : IssueComment, c ∈ selectedComments userId cs ↔
        c ∈ cs ∧ authorMatches c.user userId = true) ∧
      (∀ rv : ReviewComment, rv ∈ selectedReviews userId rs ↔
        rv ∈ rs ∧ authorMatches rv.user userId = true) := by
  refine ⟨rfl, ?_, ?_, ?_, ?_⟩
  · rw [report_pure_eq]
    by_cases hw : 0 < sumWarnings (groupComments (filterStage logs d)) ∨
        0 < sumErrors (groupComments (filterStage logs d)) <;>
      cases r <;>
        simp [List.filter_append, List.filter_map, Event.isCleanupRead,
          removalEvents, reviewEvents, Function.comp_def, List.filter_false,
          totalErrors, totalWarnings, hw]
  · rw [report_pure_eq]
    by_cases hw : 0 < sumWarnings (groupComments (filterStage logs d)) ∨
        0 < sumErrors (groupComments (filterStage logs d)) <;>
      cases r <;>
        simp [List.filter_append, List.filter_map, Event.isDelete,
          removalEvents, reviewEvents, Function.comp_def, List.filter_false,
          List.filter_true, totalErrors, totalWarnings, hw]
  · intro c
    simp [selectedComments, List.mem_filter]
  · intro rv
    simp [selectedReviews, List.mem_filter]

/-- C6: a rejection of any adapter call made during `report` propagates
to the caller unchanged; the phases after the failing one are not
executed, and the failing batch is not retried — the trace ends with the
failing phase's events. -/
theorem claim_error_propagation (svc : PRService) (r : Bool) (logs : List LogType)
    (e : Err) :
    (svc.getLatestCommitSha = .error e →
        GitHub.report ⟨svc, r⟩ logs = (.error e, [Event.getSha])) ∧
      (∀ sha, svc.getLatestCommitSha = .ok sha → svc.diff = .error e →
        GitHub.report ⟨svc, r⟩ logs = (.error e, [Event.getSha, Event.getDiff])) ∧
      (∀ st tr1 tr2, setupPhase svc logs = (.ok st, tr1) →
        removalStep svc r = (.error e, tr2) →
        GitHub.report ⟨svc, r⟩ logs = (.error e, tr1 ++ tr2)) ∧
      (∀ st tr1 tr2 tr3, setupPhase svc logs = (.ok st, tr1) →
        removalStep svc r = (.ok (), tr2) →
        reviewPhase svc st.commitId st.comments = (.error e, tr3) →
        GitHub.report ⟨svc, r⟩ logs = (.error e, tr1 ++ tr2 ++ tr3)) ∧
      (∀ st tr1 tr2 tr3 tr4, setupPhase svc logs = (.ok st, tr1) →
        removalStep svc r = (.ok (), tr2) →
        reviewPhase svc st.commitId st.comments = (.ok (), tr3) →
        summaryPhase svc st.nError st.nWarning = (.error e, tr4) →
        GitHub.report ⟨svc, r⟩ logs = (.error e, tr1 ++ tr2 ++ tr3 ++ tr4)) ∧
      (∀ st tr1 tr2 tr3 tr4 tr5, setupPhase svc logs = (.ok st, tr1) →
        removalStep svc r = (.ok (), tr2) →
        reviewPhase svc st.commitId st.comments = (.ok (), tr3) →
        summaryPhase svc st.nError st.nWarning = (.ok (), tr4) →
        statusPhase svc st.commitId st.nError = (.error e, tr5) →
        GitHub.report ⟨svc, r⟩ logs = (.error e, tr1 ++ tr2 ++ tr3 ++ tr4 ++ tr5)) := by
  refine ⟨?_, ?_, ?_, ?_, ?_, ?_⟩
  · intro h
    simp [GitHub.report, setupPhase, tbind, call, h]
  · intro sha h1 h2
    simp [GitHub.report, setupPhase, tbind, call, h1, h2]
  · intro st tr1 tr2 h1 h2
    simp [GitHub.report, tbind, h1, h2]
  · intro st tr1 tr2 tr3 h1 h2 h3
    simp [GitHub.report, tbind, h1, h2, h3]
  · intro st tr1 tr2 tr3 tr4 h1 h2 h3 h4
    simp [GitHub.report, tbind, h1, h2, h3, h4]
  · intro st tr1 tr2 tr3 tr4 tr5 h1 h2 h3 h4 h5
    simp [GitHub.report, tbind, h1, h2, h3, h4, h5]


/-- C6 witness: the rejection of the commit-sha read at a concrete run is
rethrown unchanged and the run stops at that first call. -/
theorem claim_error_propagation_witness :
    GitHub.report ⟨downService, false⟩ [] = (.error "network down", [Event.getSha]) :=
  (claim_error_propagation downService false [] "network down").1 rfl

/-- C7: when the findings filter to nothing, no inline comment and no
summary comment is posted, the deletion calls still occur exactly when
`removeOldComment` is true, and the commit status is still set, to
success. -/
theorem claim_nothing_to_report (sha : String) (d : List Diff) (userId : Nat)
    (cs : List IssueComment) (rs : List ReviewComment) (r : Bool)
    (logs : List LogType) (h : filterStage logs d = []) :
    (GitHub.report ⟨pureService sha d userId cs rs, r⟩ logs).2.filter
        Event.isInlinePost = [] ∧
      (GitHub.report ⟨pureService sha d userId cs rs, r⟩ logs).2.filter
        Event.isSummary = [] ∧
      ((GitHub.report ⟨pureService sha d userId cs rs, r⟩ logs).2.filter
          Event.isDelete =
        if r then
          (selectedComments userId cs).map (fun c => Event.deleteComment c.id) ++
            (selectedReviews userId rs).map (fun rv => Event.deleteReviewComment rv.id)
        else []) ∧
      (GitHub.report ⟨pureService sha d userId cs rs, r⟩ logs).2.filter
          Event.isSetStatus =
        [Event.setCommitStatus sha CommitStatus.success
          (generateCommitDescription 0)] := by
  have h0 : groupComments (filterStage logs d) = [] := by rw [h]; rfl
  refine ⟨?_, ?_, ?_, ?_⟩ <;>
    · rw [report_pure_eq]
      cases r <;>
        simp [List.filter_append, List.filter_map, Event.isInlinePost,
          Event.isSummary, Event.isDelete, Event.isSetStatus, removalEvents,
          reviewEvents, Function.comp_def, List.filter_false, totalErrors,
          totalWarnings, h0, sumErrors, sumWarnings]

/-- C7 witness: an empty findings list with removal enabled still issues
the deletion of the current user's listed comment and posts nothing. -/
theorem claim_nothing_to_report_witness :
    (GitHub.report
        ⟨pureService "s" [] 3 [{ id := 1, user := some ⟨3⟩, system := false }] [],
          true⟩ []).2.filter Event.isDelete = [Event.deleteComment 1] := by
  have h := (claim_nothing_to_report "s" [] 3
    [{ id := 1, user := some ⟨3⟩, system := false }] [] true [] rfl).2.2.1
  simpa [selectedComments, selectedReviews, authorMatches] using h

/-- C8: within one invocation the phases appear in the trace strictly in
sequence — the two setup reads, then the removal events (reads and
deletions only), then the inline posts only, then the summary post only,
then the commit status. -/
theorem claim_phase_ordering (sha : String) (d : List Diff) (userId : Nat)
    (cs : List IssueComment) (rs : List ReviewComment) (r : Bool)
    (logs : List LogType) :
    (GitHub.report ⟨pureService sha d userId cs rs, r⟩ logs).2 =
        [Event.getSha, Event.getDiff] ++
          (if r then removalEvents userId cs rs else []) ++
          reviewEvents sha (groupComments (filterStage logs d)) ++
          (if totalWarnings logs d + totalErrors logs d > 0 then
            [Event.createComment
              (generateOverviewMessage (totalErrors logs d) (totalWarnings logs d))]
          else []) ++
          [Event.setCommitStatus sha
            (if totalErrors logs d > 0 then CommitStatus.failure
            else CommitStatus.success)
            (generateCommitDescription (totalErrors logs d))] ∧
      ((if r then removalEvents userId cs rs else []).all fun ev =>
        Event.isCleanupRead ev || Event.isDelete ev) = true ∧
      ((reviewEvents sha (groupComments (filterStage logs d))).all
        Event.isInlinePost) = true ∧
      ((if totalWarnings logs d + totalErrors logs d > 0 then
          [Event.createComment
            (generateOverviewMessage (totalErrors logs d) (totalWarnings logs d))]
        else []).all Event.isSummary) = true := by
  refine ⟨?_, ?_, ?_, ?_⟩
  · rw [report_pure_eq]
  · cases r <;>
      simp [removalEvents, Event.isCleanupRead, Event.isDelete, List.all_append,
        List.all_map, Function.comp_def]
  · simp [reviewEvents, List.all_map, Event.isInlinePost, Function.comp_def]
  · by_cases hw : 0 < sumWarnings (groupComments (filterStage logs d)) ∨
        0 < sumErrors (groupComments (filterStage logs d)) <;>
      simp [totalErrors, totalWarnings, Event.isSummary, hw]

/-- C9: during stale-comment removal, a listed top-level or review
comment whose user field is absent is never selected for deletion, for
every current-user id; when every listed item lacks an author, no delete
call is issued at all. -/
theorem claim_absent_author_safe (sha : String) (d : List Diff) (userId : Nat)
    (cs : List IssueComment) (rs : List ReviewComment) (logs : List LogType)
    (c : IssueComment) (rv : ReviewComment)
    (hc : c.user = none) (hrv : rv.user = none)
    (hcs : ∀ x ∈ cs, x.user = none) (hrs : ∀ x ∈ rs, x.user = none) :
    authorMatches c.user userId = false ∧
      c ∉ selectedComments userId cs ∧
      rv ∉ selectedReviews userId rs ∧
      (GitHub.report ⟨pureService sha d userId cs rs, true⟩ logs).2.filter
        Event.isDelete = [] := by
  have hmc : authorMatches c.user userId = false := by rw [hc]; rfl
  have hmr : authorMatches rv.user userId = false := by rw [hrv]; rfl
  have h1 : selectedComments userId cs = [] := by
    refine List.filter_eq_nil_iff.mpr fun x hx => ?_
    rw [hcs x hx]
    simp [authorMatches]
  have h2 : selectedReviews userId rs = [] := by
    refine List.filter_eq_nil_iff.mpr fun x hx => ?_
    rw [hrs x hx]
    simp [authorMatches]
  refine ⟨hmc, ?_, ?_, ?_⟩
  · simp [h1]
  · simp [h2]
  · rw [report_pure_eq]
    by_cases hw : 0 < sumWarnings (groupComments (filterStage logs d)) ∨
        0 < sumErrors (groupComments (filterStage logs d)) <;>
      simp [List.filter_append, List.filter_map, Event.isDelete, removalEvents,
        reviewEvents, Function.comp_def, List.filter_false, totalErrors,
        totalWarnings, h1, h2, hw]

/-- C9 witness: with one authorless comment and one authorless review
comment listed, the concrete run issues no delete call. -/
theorem claim_absent_author_safe_witness :
    (GitHub.report
        ⟨pureService "s" [] 7 [{ id := 1, user := none, system := false }]
          [{ id := 2, user := none }], true⟩ []).2.filter Event.isDelete = [] :=
  (claim_absent_author_safe "s" [] 7 [{ id := 1, user := none, system := false }]
    [{ id := 2, user := none }] [] { id := 1, user := none, system := false }
    { id := 2, user := none } rfl rfl
    (fun x hx => by rcases List.mem_singleton.mp hx with rfl; rfl)
    (fun x hx => by rcases List.mem_singleton.mp hx with rfl; rfl)).2.2.2

/-- C10: stale-comment removal deletes every listed comment whose author
id equals the current user's id, with no system-generated exclusion: the
selection depends only on the author id, so a system-generated comment
attributed to the tool's user is selected and its delete call issued. -/
theorem claim_no_system_exclusion (sha : String) (d : List Diff) (userId : Nat)
    (cs : List IssueComment) (rs : List ReviewComment) (logs : List LogType)
    (c : IssueComment) (hmem : c ∈ cs) (hauthor : c.user = some ⟨userId⟩) :
    authorMatches c.user userId = true ∧
      c ∈ selectedComments userId cs ∧
      Event.deleteComment c.id ∈
        (GitHub.report ⟨pureService sha d userId cs rs, true⟩ logs).2 := by
  have hm : authorMatches c.user userId = true := by
    rw [hauthor]
    simp [authorMatches]
  have hsel : c ∈ selectedComments userId cs := List.mem_filter.mpr ⟨hmem, hm⟩
  have hev : Event.deleteComment c.id ∈ removalEvents userId cs rs := by
    unfold removalEvents
    refine List.mem_append.mpr (Or.inl ?_)
    refine List.mem_append.mpr (Or.inr ?_)
    exact List.mem_map.mpr ⟨c, hsel, rfl⟩
  refine ⟨hm, hsel, ?_⟩
  rw [report_pure_eq]
  simp only [if_true, List.mem_append, eq_self_iff_true, if_pos]
  tauto

/-- C10 witness: a system-generated comment listed under the tool's own
user id is selected and deleted in a concrete run. -/
theorem claim_no_system_exclusion_witness :
    Event.deleteComment 9 ∈
      (GitHub.report
        ⟨pureService "s" [] 7 [{ id := 9, user := some ⟨7⟩, system := true }] [],
          true⟩ []).2 :=
  (claim_no_system_exclusion "s" [] 7
    [{ id := 9, user := some ⟨7⟩, system := true }] [] []
    { id := 9, user := some ⟨7⟩, system := true }
    (List.mem_singleton.mpr rfl) rfl).2.2

end CodeCoach
